import Mathlib

/-!
# Pi Garage Alert: state tracker, escalation engine and dispatch

A shallow embedding of the core of `bin/pi_garage_alert.py`:

* the per-door body of the main polling loop (lines 617-650), which tracks the
  door state, the time of the last transition and the escalation cursor
  (`door_states`, `time_of_last_state_change`, `alert_states`), emits a closing
  alert when the state changes with a nonzero cursor, and fires the next alert
  rule when the time in state exceeds its threshold;
* `create_event` (lines 467-477), the structured event record;
* `send_alerts` (lines 480-502), the recipient-scheme dispatch;
* `truncate` (lines 508-518), the SMS/social message truncation, with Python's
  negative-slice semantics made explicit.

Times are modelled as integer seconds (the source uses `time.time()` floats at
a 1-second polling cadence; `round` on an integral value is the identity).
Each poll tick is given a single time value `now`, standing for the two
`time.time()` calls of one loop body.
-/

/-- An alert rule from a door's configuration (one element of `door['alerts']`):
`time` is the threshold in seconds, `state` is the trigger state, and
`recipients` are the scheme-tagged recipient strings. -/
structure AlertRule where
  time : Int
  state : String
  recipients : List String
  deriving DecidableEq, Repr

instance : Inhabited AlertRule :=
  ⟨⟨0, "", []⟩⟩

/-- A configured door: its `name` and its ordered list of alert rules. -/
structure Door where
  name : String
  alerts : List AlertRule
  deriving DecidableEq, Repr

/-- The per-door mutable state of the main loop: `door_states[name]`,
`time_of_last_state_change[name]` and `alert_states[name]`. -/
structure DoorSt where
  doorState : String
  lastChange : Int
  alertState : Nat
  deriving DecidableEq, Repr

/-- A JSON scalar, as produced by `demjson.encode` on the event dictionary. -/
inductive JVal where
  | str : String → JVal
  | num : Int → JVal
  deriving DecidableEq, Repr

/-- `create_event(door, state, time_in_state)` (lines 467-477): the structured
event record, as the ordered key-value list of the encoded dictionary.  The
ambient `time.strftime("%Y-%m-%dT%H:%M:%S", time.localtime())` result is passed
in as `stamp`. -/
def create_event (stamp : String) (door : String) (state : String)
    (time_in_state : Int) : List (String × JVal) :=
  [("timestamp", JVal.str stamp), ("door", JVal.str door),
   ("state", JVal.str state), ("time", JVal.num time_in_state)]

/-- One call to `send_alerts` made by the main loop: the recipient list, the
subject (the door name) and the event payload. -/
structure Emission where
  recipients : List String
  subject : String
  event : List (String × JVal)
  deriving DecidableEq, Repr

/-- Lines 641-650 of the main loop: if there are more alerts, fire the alert at
the current cursor when the time in state strictly exceeds its threshold and
the sensed state equals its trigger state, appending the emission and advancing
the cursor. -/
def tickEscalate (door : Door) (stamp : String) (sensed : String) (st1 : DoorSt)
    (tis1 : Int) (closing : List Emission) : DoorSt × List Emission :=
  if st1.alertState < door.alerts.length then
    let alert := door.alerts.getD st1.alertState default
    if tis1 > alert.time ∧ sensed = alert.state then
      (⟨st1.doorState, st1.lastChange, st1.alertState + 1⟩,
        closing ++ [⟨alert.recipients, door.name,
          create_event stamp door.name sensed tis1⟩])
    else
      (st1, closing)
  else
    (st1, closing)

/-- One iteration of the per-door body of the main polling loop
(lines 617-650).  `sensed` is `get_garage_door_state(door['pin'])` and `now`
stands for `time.time()` on this tick.  On a state change the stored state and
transition time are updated, a closing alert is emitted when the cursor is
positive (addressed to the recipients of the last fired rule, carrying the new
state and the duration of the state just exited), the cursor is reset, and
`time_in_state` is reset to `0`; then the escalation check of lines 641-650
runs. -/
def tickStep (door : Door) (stamp : String) (now : Int) (sensed : String)
    (st : DoorSt) : DoorSt × List Emission :=
  let time_in_state := now - st.lastChange
  if st.doorState ≠ sensed then
    let closing : List Emission :=
      if 0 < st.alertState then
        [⟨(door.alerts.getD (st.alertState - 1) default).recipients, door.name,
          create_event stamp door.name sensed time_in_state⟩]
      else []
    let alertState1 := if 0 < st.alertState then 0 else st.alertState
    tickEscalate door stamp sensed ⟨sensed, now, alertState1⟩ 0 closing
  else
    tickEscalate door stamp sensed st time_in_state []

/-- An element of `door.alerts` read through `getD` at an in-bounds index is a
member of the list. -/
theorem getD_mem_of_lt {α : Type} [Inhabited α] (l : List α) (i : Nat)
    (h : i < l.length) : l.getD i default ∈ l := by
  rw [List.getD_eq_getElem?_getD, List.getElem?_eq_getElem h]
  exact List.getElem_mem h

/-- C5: with non-negative rule thresholds, one tick of the per-door loop body
emits at most one alert call: either the closing alert of a state change or a
single escalation, never both in the same tick. -/
theorem tick_emits_at_most_one (door : Door) (stamp : String) (now : Int)
    (sensed : String) (st : DoorSt)
    (hpos : ∀ a ∈ door.alerts, 0 ≤ a.time) :
    ((tickStep door stamp now sensed st).2).length ≤ 1 := by
  unfold tickStep tickEscalate
  by_cases hch : st.doorState ≠ sensed
  · simp only [if_pos hch]
    by_cases hlen : (if 0 < st.alertState then 0 else st.alertState) <
        door.alerts.length
    · simp only [if_pos hlen]
      have hmem := getD_mem_of_lt door.alerts _ hlen
      have := hpos _ hmem
      have hnot : ¬ ((0:Int) >
          (door.alerts.getD (if 0 < st.alertState then 0 else st.alertState)
            default).time ∧ sensed =
          (door.alerts.getD (if 0 < st.alertState then 0 else st.alertState)
            default).state) := by
        intro hcontra
        omega
      simp only [if_neg hnot]
      by_cases h0 : 0 < st.alertState <;> simp [h0]
    · simp only [if_neg hlen]
      by_cases h0 : 0 < st.alertState <;> simp [h0]
  · simp only [if_neg hch]
    by_cases hlen : st.alertState < door.alerts.length
    · simp only [if_pos hlen]
      split <;> simp
    · simp only [if_neg hlen]
      simp

/-- Witness for C5 at a concrete door, state and tick. -/
theorem tick_emits_at_most_one_witness :
    ((tickStep ⟨"Main", [⟨60, "open", ["email:a"]⟩]⟩ "2026-01-01T00:00:00"
      100 "open" ⟨"open", 0, 0⟩).2).length ≤ 1 :=
  tick_emits_at_most_one _ _ _ _ _ (by decide)


/-- The escalation check never touches the stored transition timestamp. -/
theorem tickEscalate_fst_lastChange (door : Door) (stamp : String)
    (sensed : String) (st1 : DoorSt) (tis1 : Int) (closing : List Emission) :
    (tickEscalate door stamp sensed st1 tis1 closing).1.lastChange =
      st1.lastChange := by
  simp only [tickEscalate]
  split
  · split
    · rfl
    · rfl
  · rfl

/-- The escalation check either keeps the cursor or advances it by one. -/
theorem tickEscalate_fst_alertState_or (door : Door) (stamp : String)
    (sensed : String) (st1 : DoorSt) (tis1 : Int) (closing : List Emission) :
    (tickEscalate door stamp sensed st1 tis1 closing).1.alertState =
        st1.alertState
    ∨ (tickEscalate door stamp sensed st1 tis1 closing).1.alertState =
        st1.alertState + 1 := by
  simp only [tickEscalate]
  split
  · split
    · right; rfl
    · left; rfl
  · left; rfl

/-- With non-negative thresholds, the escalation check does nothing when the
time in state is `0` (as it is right after a transition). -/
theorem tickEscalate_of_nonneg (door : Door) (stamp : String) (sensed : String)
    (st1 : DoorSt) (closing : List Emission)
    (hpos : ∀ a ∈ door.alerts, 0 ≤ a.time) :
    tickEscalate door stamp sensed st1 0 closing = (st1, closing) := by
  simp only [tickEscalate]
  by_cases hlen : st1.alertState < door.alerts.length
  · have hnn := hpos _ (getD_mem_of_lt door.alerts _ hlen)
    have hnot : ¬ ((0:Int) > (door.alerts.getD st1.alertState default).time
        ∧ sensed = (door.alerts.getD st1.alertState default).state) := by
      intro hc
      have := hc.1
      omega
    rw [if_pos hlen, if_neg hnot]
  · rw [if_neg hlen]

/-- C1: with non-negative rule thresholds, a tick on which the sensed state
differs from the stored state leaves the escalation cursor at `0`, and a tick
with no state change leaves the cursor unchanged or advances it by exactly one
-- it never decreases between state changes. -/
theorem cursor_reset_and_monotone (door : Door) (stamp : String) (now : Int)
    (sensed : String) (st : DoorSt)
    (hpos : ∀ a ∈ door.alerts, 0 ≤ a.time) :
    (st.doorState ≠ sensed → (tickStep door stamp now sensed st).1.alertState = 0)
  ∧ (st.doorState = sensed →
      ((tickStep door stamp now sensed st).1.alertState = st.alertState
       ∨ (tickStep door stamp now sensed st).1.alertState = st.alertState + 1)) := by
  constructor
  · intro hch
    simp only [tickStep, if_pos hch]
    rw [tickEscalate_of_nonneg door stamp sensed _ _ hpos]
    by_cases h0 : 0 < st.alertState
    · simp [h0]
    · simp only [if_neg h0]
      omega
  · intro hsame
    have hch : ¬ st.doorState ≠ sensed := by simp [hsame]
    simp only [tickStep, if_neg hch]
    exact tickEscalate_fst_alertState_or door stamp sensed st _ []

/-- Witness for C1: a change tick resets the cursor to `0`, and a no-change
tick keeps it or advances it by one. -/
theorem cursor_reset_and_monotone_witness :
    (tickStep ⟨"Main", [⟨60, "open", ["email:a"]⟩]⟩ "s" 5 "closed"
      ⟨"open", 0, 1⟩).1.alertState = 0
  ∧ ((tickStep ⟨"Main", [⟨60, "open", ["email:a"]⟩]⟩ "s" 5 "open"
      ⟨"open", 0, 0⟩).1.alertState = 0
     ∨ (tickStep ⟨"Main", [⟨60, "open", ["email:a"]⟩]⟩ "s" 5 "open"
      ⟨"open", 0, 0⟩).1.alertState = 0 + 1) :=
  ⟨(cursor_reset_and_monotone _ _ _ _ _ (by decide)).1 (by decide),
   (cursor_reset_and_monotone _ _ _ _ _ (by decide)).2 rfl⟩

/-- C7: the stored transition timestamp is updated (to the tick's `now`)
exactly on ticks where the sensed state differs from the stored state, and is
left unchanged on no-change ticks. -/
theorem lastChange_frame (door : Door) (stamp : String) (now : Int)
    (sensed : String) (st : DoorSt) :
    (st.doorState ≠ sensed →
      (tickStep door stamp now sensed st).1.lastChange = now)
  ∧ (st.doorState = sensed →
      (tickStep door stamp now sensed st).1.lastChange = st.lastChange) := by
  constructor
  · intro hch
    simp only [tickStep, if_pos hch]
    rw [tickEscalate_fst_lastChange]
  · intro hsame
    have hch : ¬ st.doorState ≠ sensed := by simp [hsame]
    simp only [tickStep, if_neg hch]
    rw [tickEscalate_fst_lastChange]

/-- Witness for C7 at concrete ticks: the timestamp becomes `now` on a change
tick and stays put on a no-change tick. -/
theorem lastChange_frame_witness :
    (tickStep ⟨"Main", [⟨60, "open", ["email:a"]⟩]⟩ "s" 7 "closed"
      ⟨"open", 2, 0⟩).1.lastChange = 7
  ∧ (tickStep ⟨"Main", [⟨60, "open", ["email:a"]⟩]⟩ "s" 7 "open"
      ⟨"open", 2, 0⟩).1.lastChange = 2 :=
  ⟨(lastChange_frame _ _ _ _ _).1 (by decide),
   (lastChange_frame _ _ _ _ _).2 rfl⟩

/-- `getD` at an in-bounds index with the default is `get` at that index. -/
theorem getD_eq_get_of_lt {α : Type} [Inhabited α] (l : List α) (i : Nat)
    (h : i < l.length) : l.getD i default = l.get ⟨i, h⟩ := by
  rw [List.getD_eq_getElem?_getD, List.getElem?_eq_getElem h]
  rfl

/-- C3: thresholds are strict.  On a no-change tick whose time in state equals
the pending rule's threshold nothing fires, while one more second does fire the
rule; and a rule with threshold `0` does not fire on the transition tick
itself, where the time in state has been reset to `0`. -/
theorem threshold_boundary (door : Door) (stamp : String) (now : Int)
    (sensed : String) (st : DoorSt) :
    (st.doorState = sensed → st.alertState < door.alerts.length →
     sensed = (door.alerts.getD st.alertState default).state →
     now - st.lastChange = (door.alerts.getD st.alertState default).time →
     tickStep door stamp now sensed st = (st, []))
  ∧ (st.doorState = sensed → st.alertState < door.alerts.length →
     sensed = (door.alerts.getD st.alertState default).state →
     now - st.lastChange = (door.alerts.getD st.alertState default).time + 1 →
     tickStep door stamp now sensed st =
       (⟨st.doorState, st.lastChange, st.alertState + 1⟩,
        [⟨(door.alerts.getD st.alertState default).recipients, door.name,
          create_event stamp door.name sensed (now - st.lastChange)⟩]))
  ∧ (st.doorState ≠ sensed → st.alertState = 0 →
     (door.alerts.getD 0 default).time = 0 →
     tickStep door stamp now sensed st = (⟨sensed, now, 0⟩, [])) := by
  refine ⟨?_, ?_, ?_⟩
  · intro hsame hlen htrig heq
    have hch : ¬ st.doorState ≠ sensed := by simp [hsame]
    simp only [tickStep, if_neg hch, tickEscalate]
    rw [if_pos hlen, if_neg]
    intro hc
    have := hc.1
    omega
  · intro hsame hlen htrig heq
    have hch : ¬ st.doorState ≠ sensed := by simp [hsame]
    simp only [tickStep, if_neg hch, tickEscalate]
    rw [if_pos hlen, if_pos ⟨by omega, htrig⟩]
    simp

  · intro hch h0 ht
    have h00 : ¬ (0:Nat) < 0 := by omega
    simp only [tickStep, if_pos hch, h0, if_neg h00, tickEscalate]
    by_cases hlen : (0:Nat) < door.alerts.length
    · have hnot : ¬ ((0:Int) > (door.alerts.getD 0 default).time
          ∧ sensed = (door.alerts.getD 0 default).state) := by
        intro hc
        have := hc.1
        omega
      rw [if_pos hlen, if_neg hnot]
    · rw [if_neg hlen]

/-- Witness for C3: with threshold `60` and trigger state `"open"`, the tick at
time in state `60` does not fire, the tick at `61` fires, and on a transition
tick a threshold-`0` rule does not fire. -/
theorem threshold_boundary_witness :
    tickStep ⟨"Main", [⟨60, "open", ["email:a"]⟩]⟩ "s" 60 "open"
      ⟨"open", 0, 0⟩ = (⟨"open", 0, 0⟩, [])
  ∧ tickStep ⟨"Main", [⟨60, "open", ["email:a"]⟩]⟩ "s" 61 "open"
      ⟨"open", 0, 0⟩ =
      (⟨"open", 0, 1⟩,
       [⟨["email:a"], "Main", create_event "s" "Main" "open" 61⟩])
  ∧ tickStep ⟨"Main", [⟨0, "open", ["email:a"]⟩]⟩ "s" 9 "open"
      ⟨"closed", 4, 0⟩ = (⟨"open", 9, 0⟩, []) :=
  ⟨(threshold_boundary _ _ _ _ _).1 rfl (by decide) (by decide) (by decide),
   (threshold_boundary _ _ _ _ _).2.1 rfl (by decide) (by decide) (by decide),
   (threshold_boundary _ _ _ _ _).2.2 (by decide) rfl (by decide)⟩

/-- C4: on a change tick with pre-reset cursor `k > 0` (and `k` within the rule
list, with non-negative thresholds), exactly one closing alert is emitted,
addressed to the recipients of rule `k - 1`, carrying the new state and the
duration of the state just exited, and the cursor ends the tick reset to `0`;
with pre-reset cursor `0` no alert is emitted at all. -/
theorem closing_event (door : Door) (stamp : String) (now : Int)
    (sensed : String) (st : DoorSt)
    (hch : st.doorState ≠ sensed)
    (hcur : st.alertState ≤ door.alerts.length)
    (hpos : ∀ a ∈ door.alerts, 0 ≤ a.time) :
    (0 < st.alertState →
       ∃ h : st.alertState - 1 < door.alerts.length,
         tickStep door stamp now sensed st =
           (⟨sensed, now, 0⟩,
            [⟨(door.alerts.get ⟨st.alertState - 1, h⟩).recipients, door.name,
              create_event stamp door.name sensed (now - st.lastChange)⟩]))
  ∧ (st.alertState = 0 →
       tickStep door stamp now sensed st = (⟨sensed, now, 0⟩, [])) := by
  constructor
  · intro h0
    have hidx : st.alertState - 1 < door.alerts.length := by omega
    refine ⟨hidx, ?_⟩
    simp only [tickStep, if_pos hch, if_pos h0]
    rw [tickEscalate_of_nonneg door stamp sensed _ _ hpos]
    rw [getD_eq_get_of_lt door.alerts _ hidx]
  · intro h0
    have h00 : ¬ (0:Nat) < 0 := by omega
    simp only [tickStep, if_pos hch, h0, if_neg h00]
    rw [tickEscalate_of_nonneg door stamp sensed _ _ hpos]

/-- Witness for C4: a door escalated to cursor `2` closes at `t = 310`; the
closing alert goes to rule `1`'s recipients with the new state and the exited
duration, and the cursor resets; with cursor `0` nothing is emitted. -/
theorem closing_event_witness :
    (∃ h : (2:Nat) - 1 <
        ([⟨60, "open", ["email:a"]⟩, ⟨300, "open", ["sms:b"]⟩] :
          List AlertRule).length,
      tickStep ⟨"Main", [⟨60, "open", ["email:a"]⟩, ⟨300, "open", ["sms:b"]⟩]⟩
        "s" 310 "closed" ⟨"open", 0, 2⟩ =
        (⟨"closed", 310, 0⟩,
         [⟨(([⟨60, "open", ["email:a"]⟩, ⟨300, "open", ["sms:b"]⟩] :
             List AlertRule).get ⟨2 - 1, h⟩).recipients, "Main",
           create_event "s" "Main" "closed" 310⟩]))
  ∧ tickStep ⟨"Main", [⟨60, "open", ["email:a"]⟩, ⟨300, "open", ["sms:b"]⟩]⟩
      "s" 310 "closed" ⟨"open", 0, 0⟩ = (⟨"closed", 310, 0⟩, []) :=
  ⟨(closing_event ⟨"Main", [⟨60, "open", ["email:a"]⟩, ⟨300, "open", ["sms:b"]⟩]⟩
      "s" 310 "closed" ⟨"open", 0, 2⟩
      (by decide) (by decide) (by decide)).1 (by decide),
   (closing_event ⟨"Main", [⟨60, "open", ["email:a"]⟩, ⟨300, "open", ["sms:b"]⟩]⟩
      "s" 310 "closed" ⟨"open", 0, 0⟩
      (by decide) (by decide) (by decide)).2 rfl⟩

/-- Python string slice `s[:k]` for a non-negative `k`: the first `k`
characters (clamped to the length). -/
def pyTake (s : String) (k : Nat) : String :=
  ⟨s.data.take k⟩

/-- Python string slice `s[k:]` for a non-negative `k`. -/
def pyDrop (s : String) (k : Nat) : String :=
  ⟨s.data.drop k⟩

/-- Python string slice `s[:k]` for an arbitrary integer `k`: a negative stop
counts from the end of the string, clamped at `0`. -/
def pySliceTo (s : String) (k : Int) : String :=
  if k < 0 then pyTake s ((s.length : Int) + k).toNat else pyTake s k.toNat

/-- `truncate(input_str, length)` (lines 508-518): return the input unchanged
when its length is under `length - 3`, else the slice `input_str[:(length - 3)]`
followed by an ellipsis.  `length` is a Python integer, so the slice keeps
Python's negative-stop semantics. -/
def truncate (input_str : String) (length : Int) : String :=
  if (input_str.length : Int) < length - 3 then input_str
  else pySliceTo input_str (length - 3) ++ "..."

/-- One delivery action produced by `send_alerts` (lines 480-502) for a single
recipient: the channel call made, or the error report for an unrecognized
recipient type. -/
inductive SendAction where
  | email : String → String → String → SendAction
  | twitterDM : String → String → SendAction
  | tweet : String → SendAction
  | sms : String → String → SendAction
  | jabber : String → String → SendAction
  | mqtt : String → String → SendAction
  | unrecognizedError : String → SendAction
  deriving DecidableEq, Repr

/-- The scheme dispatch of `send_alerts` for one recipient string, in the
source's test order (lines 488-502). -/
def sendOne (subject : String) (msg : String) (recipient : String) :
    SendAction :=
  if pyTake recipient 6 = "email:" then
    SendAction.email (pyDrop recipient 6) subject msg
  else if pyTake recipient 11 = "twitter_dm:" then
    SendAction.twitterDM (pyDrop recipient 11) msg
  else if recipient = "tweet" then
    SendAction.tweet msg
  else if pyTake recipient 4 = "sms:" then
    SendAction.sms (pyDrop recipient 4) msg
  else if pyTake recipient 7 = "jabber:" then
    SendAction.jabber (pyDrop recipient 7) msg
  else if pyTake recipient 5 = "mqtt:" then
    SendAction.mqtt (pyDrop recipient 5) msg
  else
    SendAction.unrecognizedError recipient

/-- `send_alerts(logger, alert_senders, recipients, subject, msg)`: one
delivery action per recipient, in order. -/
def send_alerts (recipients : List String) (subject : String) (msg : String) :
    List SendAction :=
  recipients.map (sendOne subject msg)

/-- Whether a delivery action is the error report for an unrecognized
recipient type. -/
def isUnrecognized : SendAction → Bool
  | SendAction.unrecognizedError _ => true
  | _ => false

/-- A recipient string matches one of the six known scheme tests of
`send_alerts`. -/
def hasKnownScheme (r : String) : Bool :=
  decide (pyTake r 6 = "email:") || decide (pyTake r 11 = "twitter_dm:")
  || decide (r = "tweet") || decide (pyTake r 4 = "sms:")
  || decide (pyTake r 7 = "jabber:") || decide (pyTake r 5 = "mqtt:")

/-- Dispatch of one recipient yields the unrecognized-type error exactly when
the recipient matches no known scheme. -/
theorem sendOne_unrecognized (subject msg r : String) :
    isUnrecognized (sendOne subject msg r) = !hasKnownScheme r := by
  unfold sendOne hasKnownScheme
  split_ifs <;> simp [isUnrecognized, *]

/-- C6: dispatch isolation.  `send_alerts` attempts one delivery per recipient;
a recipient with an unrecognized scheme yields an error report for that
recipient only, and every recognized recipient still gets its channel call; in
particular with three recipients of which one is bad, the other two are
delivered and exactly one error is reported. -/
theorem dispatch_isolation (rs : List String) (subject msg : String) :
    (send_alerts rs subject msg).length = rs.length
  ∧ (send_alerts rs subject msg).countP isUnrecognized =
      rs.countP (fun r => !hasKnownScheme r)
  ∧ (∀ r ∈ rs, hasKnownScheme r = true →
      sendOne subject msg r ∈ send_alerts rs subject msg
      ∧ isUnrecognized (sendOne subject msg r) = false)
  ∧ send_alerts ["email:a@b.c", "bogus:x", "sms:12345"] "Door" "m" =
      [SendAction.email "a@b.c" "Door" "m",
       SendAction.unrecognizedError "bogus:x",
       SendAction.sms "12345" "m"] := by
  refine ⟨List.length_map _ _, ?_, ?_, ?_⟩
  · rw [send_alerts, List.countP_map]
    apply List.countP_congr
    intro r _
    simp [Function.comp, sendOne_unrecognized]
  · intro r hr hknown
    refine ⟨List.mem_map_of_mem _ hr, ?_⟩
    rw [sendOne_unrecognized, hknown]
    rfl
  · decide

/-- Witness for C6: in a three-recipient call with one bad recipient, a
recognized recipient's delivery is still attempted and is not an error. -/
theorem dispatch_isolation_witness :
    sendOne "Door" "m" "email:a@b.c" ∈
      send_alerts ["email:a@b.c", "bogus:x", "sms:12345"] "Door" "m"
    ∧ isUnrecognized (sendOne "Door" "m" "email:a@b.c") = false :=
  (dispatch_isolation ["email:a@b.c", "bogus:x", "sms:12345"] "Door" "m").2.2.1
    "email:a@b.c" (by decide) (by decide)

/-- Concatenation of strings concatenates their character lists. -/
theorem str_data_append (a b : String) : (a ++ b).data = a.data ++ b.data := by
  cases a
  cases b
  rfl

/-- Length of a concatenation of strings. -/
theorem str_length_append (a b : String) :
    (a ++ b).length = a.length + b.length := by
  cases a
  cases b
  exact List.length_append _ _

/-- Length of a Python non-negative slice. -/
theorem pyTake_length (s : String) (k : Nat) :
    (pyTake s k).length = min k s.length := by
  exact List.length_take _ _

/-- C9: a 200-character message truncated to the SMS limit of 140 comes out at
exactly 140 characters: the first 137 characters of the input verbatim,
followed by the three-character ellipsis. -/
theorem truncate_sms (s : String) (h : s.length = 200) :
    (truncate s 140).length = 140
  ∧ truncate s 140 = pyTake s 137 ++ "..."
  ∧ pyTake (truncate s 140) 137 = pyTake s 137 := by
  have hnot : ¬ ((s.length : Int) < 140 - 3) := by
    rw [h]
    norm_num
  have h137 : (140 : Int) - 3 = 137 := by norm_num
  have htn : ((137 : Int)).toNat = 137 := rfl
  have heq : truncate s 140 = pyTake s 137 ++ "..." := by
    rw [truncate, if_neg hnot, h137, pySliceTo, if_neg (by norm_num), htn]
  have hd : s.data.length = 200 := h
  have htl : (pyTake s 137).data.length = 137 := by
    show (s.data.take 137).length = 137
    rw [List.length_take, hd]
    norm_num
  refine ⟨?_, heq, ?_⟩
  · rw [heq, str_length_append, pyTake_length, h]
    rfl
  · rw [heq]
    show (⟨(pyTake s 137 ++ "...").data.take 137⟩ : String) = pyTake s 137
    rw [str_data_append, List.take_left' htl]

/-- Witness for C9 on a concrete 200-character string. -/
theorem truncate_sms_witness :
    (truncate ⟨List.replicate 200 'a'⟩ 140).length = 140
  ∧ truncate ⟨List.replicate 200 'a'⟩ 140 =
      pyTake ⟨List.replicate 200 'a'⟩ 137 ++ "..."
  ∧ pyTake (truncate ⟨List.replicate 200 'a'⟩ 140) 137 =
      pyTake ⟨List.replicate 200 'a'⟩ 137 :=
  truncate_sms _ (List.length_replicate 200 'a')

/-- C10 counterexample: `truncate "a..." 4` returns its input unchanged even
though the input's length is not under `4 - 3`, so "unchanged exactly when
`len(s) < n - 3`" and "every input with length in `[n - 3, n]` is altered"
both fail; and at limit `0` Python's negative slice makes the result longer
than both the input and the limit, refuting the `max` bound. -/
theorem truncate_identity_counterexample :
    truncate "a..." 4 = "a..."
  ∧ ¬ ((("a..." : String).length : Int) < 4 - 3)
  ∧ ((truncate "ab" 0).length : Int) > max ((("ab" : String).length : Int)) 0 := by
  decide

/-- C10 amended: for limits `n ≥ 3`, `truncate s n` returns `s` unchanged
whenever `len s < n - 3`, and otherwise returns the first `n - 3` characters
of `s` followed by an ellipsis, a string of length exactly `n`; hence for
`n ≥ 3` the result length never exceeds `max (len s) n`.  (The converse of the
"unchanged" clause and the `n < 3` cases fail, per the counterexample.) -/
theorem truncate_amended (s : String) (n : Int) (hn : 3 ≤ n) :
    ((s.length : Int) < n - 3 → truncate s n = s)
  ∧ (n - 3 ≤ (s.length : Int) →
      truncate s n = pyTake s (n - 3).toNat ++ "..."
      ∧ ((truncate s n).length : Int) = n)
  ∧ ((truncate s n).length : Int) ≤ max (s.length : Int) n := by
  have h3 : ("..." : String).length = 3 := rfl
  by_cases hlt : (s.length : Int) < n - 3
  · refine ⟨fun _ => ?_, fun hge => absurd hlt (by omega), ?_⟩
    · rw [truncate, if_pos hlt]
    · rw [truncate, if_pos hlt]
      exact le_max_left _ _
  · have heq : truncate s n = pyTake s (n - 3).toNat ++ "..." := by
      rw [truncate, if_neg hlt, pySliceTo, if_neg (by omega)]
    have hlen : ((truncate s n).length : Int) = n := by
      rw [heq, str_length_append, pyTake_length, h3]
      push_cast
      omega
    refine ⟨fun hc => absurd hc hlt, fun _ => ⟨heq, hlen⟩, ?_⟩
    rw [hlen]
    exact le_max_right _ _

/-- Witness for the amended C10 at `s = "hello world, bye"`, `n = 10`. -/
theorem truncate_amended_witness :
    ((("hello world, bye" : String).length : Int) < 10 - 3 →
      truncate "hello world, bye" 10 = "hello world, bye")
  ∧ ((10 : Int) - 3 ≤ (("hello world, bye" : String).length : Int) →
      truncate "hello world, bye" 10 =
        pyTake "hello world, bye" ((10 : Int) - 3).toNat ++ "..."
      ∧ ((truncate "hello world, bye" 10).length : Int) = 10)
  ∧ ((truncate "hello world, bye" 10).length : Int) ≤
      max ((("hello world, bye" : String).length : Int)) 10 :=
  truncate_amended "hello world, bye" 10 (by norm_num)

/-- The decimal digit character printed for a field value `n` (one digit of a
zero-padded `strftime` field, selecting on `n % 10`). -/
def digitChar (n : Nat) : Char :=
  match n % 10 with
  | 0 => '0'
  | 1 => '1'
  | 2 => '2'
  | 3 => '3'
  | 4 => '4'
  | 5 => '5'
  | 6 => '6'
  | 7 => '7'
  | 8 => '8'
  | _ => '9'

/-- Modelled from the spec: `time.strftime("%Y-%m-%dT%H:%M:%S",
time.localtime())` in `create_event` is a C-library call external to the
repository.  This models its output for an in-range local time (year below
10000, two-digit remaining fields): zero-padded decimal fields joined by the
pattern's literal separators. -/
def strftimeISO (y mo d h mi s : Nat) : String :=
  ⟨[digitChar (y / 1000), digitChar (y / 100), digitChar (y / 10), digitChar y,
    '-', digitChar (mo / 10), digitChar mo, '-', digitChar (d / 10),
    digitChar d, 'T', digitChar (h / 10), digitChar h, ':',
    digitChar (mi / 10), digitChar mi, ':', digitChar (s / 10), digitChar s]⟩

/-- Every character produced by `digitChar` is a decimal digit. -/
theorem digitChar_isDigit (n : Nat) : (digitChar n).isDigit = true := by
  unfold digitChar
  have hlt : n % 10 < 10 := Nat.mod_lt _ (by norm_num)
  obtain ⟨m, hm⟩ : ∃ m, n % 10 = m := ⟨_, rfl⟩
  rw [hm]
  rw [hm] at hlt
  interval_cases m <;> rfl

/-- Emissions leaving the escalation check are the closing alerts passed in,
or else exactly the fired rule's alert, whose event carries the escalation
check's time in state `tis1`. -/
theorem tickEscalate_emissions_mem (door : Door) (stamp sensed : String)
    (st1 : DoorSt) (tis1 : Int) (closing : List Emission) :
    ∀ em ∈ (tickEscalate door stamp sensed st1 tis1 closing).2,
      em ∈ closing
      ∨ em = ⟨(door.alerts.getD st1.alertState default).recipients, door.name,
              create_event stamp door.name sensed tis1⟩ := by
  simp only [tickEscalate]
  split
  · split
    · intro em hem
      rcases List.mem_append.mp hem with h | h
      · exact Or.inl h
      · exact Or.inr (List.mem_singleton.mp h)
    · intro em hem
      exact Or.inl hem
  · intro em hem
    exact Or.inl hem

/-- Every alert emitted by a tick has the door name as subject and an event
built by `create_event` from the timestamp, the door's name, the sensed state
and the loop's `time_in_state` at the moment of the call: `now - lastChange`
(for a no-change escalation, and for the closing alert the duration of the
state just exited), or the reset value `0` for an escalation fired on a
change tick. -/
theorem tickStep_emissions_shape (door : Door) (stamp : String) (now : Int)
    (sensed : String) (st : DoorSt) :
    ∀ em ∈ (tickStep door stamp now sensed st).2,
      em.subject = door.name
      ∧ (em.event = create_event stamp door.name sensed (now - st.lastChange)
         ∨ (st.doorState ≠ sensed
            ∧ em.event = create_event stamp door.name sensed 0)) := by
  intro em hem
  by_cases hch : st.doorState ≠ sensed
  · simp only [tickStep, if_pos hch] at hem
    rcases tickEscalate_emissions_mem door stamp sensed _ _ _ em hem with h | h
    · by_cases h0 : 0 < st.alertState
      · rw [if_pos h0] at h
        have he := List.mem_singleton.mp h
        subst he
        exact ⟨rfl, Or.inl rfl⟩
      · rw [if_neg h0] at h
        exact absurd h (List.not_mem_nil em)
    · subst h
      exact ⟨rfl, Or.inr ⟨hch, rfl⟩⟩
  · simp only [tickStep, if_neg hch] at hem
    rcases tickEscalate_emissions_mem door stamp sensed _ _ _ em hem with h | h
    · exact absurd h (List.not_mem_nil em)
    · subst h
      exact ⟨rfl, Or.inl rfl⟩

/-- C8: every emitted event is the structured record with exactly the keys
`timestamp, door, state, time`, where `door` is the door's name, `state` is
the sensed state and `time` is the integer time in state at the emission (the
loop's `time_in_state`: `now - lastChange`, or `0` right after a reset); and
the timestamp is the local time formatted `YYYY-MM-DDTHH:MM:SS`: 19
characters, dashes at positions 4 and 7, `T` at 10, colons at 13 and 16,
digits everywhere else. -/
theorem event_wire_format (door : Door) (now : Int) (sensed : String)
    (st : DoorSt) (y mo d h mi s : Nat)
    (_hy : y < 10000) (_hmo : mo ≤ 12) (_hd : d ≤ 31)
    (_hh : h < 24) (_hmi : mi < 60) (_hs : s < 60) :
    (∀ em ∈ (tickStep door (strftimeISO y mo d h mi s) now sensed st).2,
      em.event.map Prod.fst = ["timestamp", "door", "state", "time"]
      ∧ (em.event = create_event (strftimeISO y mo d h mi s) door.name sensed
            (now - st.lastChange)
         ∨ (st.doorState ≠ sensed
            ∧ em.event =
                create_event (strftimeISO y mo d h mi s) door.name sensed 0)))
  ∧ (strftimeISO y mo d h mi s).length = 19
  ∧ (strftimeISO y mo d h mi s).data.getD 4 ' ' = '-'
  ∧ (strftimeISO y mo d h mi s).data.getD 7 ' ' = '-'
  ∧ (strftimeISO y mo d h mi s).data.getD 10 ' ' = 'T'
  ∧ (strftimeISO y mo d h mi s).data.getD 13 ' ' = ':'
  ∧ (strftimeISO y mo d h mi s).data.getD 16 ' ' = ':'
  ∧ ∀ i, i < 19 → i ∉ ([4, 7, 10, 13, 16] : List Nat) →
      ((strftimeISO y mo d h mi s).data.getD i ' ').isDigit = true := by
  refine ⟨?_, rfl, rfl, rfl, rfl, rfl, rfl, ?_⟩
  · intro em hem
    obtain ⟨hsub, hev⟩ := tickStep_emissions_shape door _ now sensed st em hem
    refine ⟨?_, hev⟩
    rcases hev with h | ⟨hne, h⟩ <;> rw [h] <;> rfl
  · intro i hi hni
    interval_cases i <;>
      first
      | exact digitChar_isDigit _
      | simp at hni

/-- Witness for C8 on a concrete door, tick and local time: the single
emission of the firing tick has the right keys and its `time` field is the
tick's time in state, and the timestamp is 19 characters long. -/
theorem event_wire_format_witness :
    ((⟨["email:a"], "Main",
        create_event (strftimeISO 2026 1 2 3 4 5) "Main" "open" 61⟩ :
      Emission).event.map Prod.fst = ["timestamp", "door", "state", "time"]
     ∧ ((⟨["email:a"], "Main",
          create_event (strftimeISO 2026 1 2 3 4 5) "Main" "open" 61⟩ :
        Emission).event =
          create_event (strftimeISO 2026 1 2 3 4 5) "Main" "open" (61 - 0)
        ∨ (("open" : String) ≠ "open"
           ∧ (⟨["email:a"], "Main",
               create_event (strftimeISO 2026 1 2 3 4 5) "Main" "open" 61⟩ :
             Emission).event =
               create_event (strftimeISO 2026 1 2 3 4 5) "Main" "open" 0)))
  ∧ (strftimeISO 2026 1 2 3 4 5).length = 19 :=
  ⟨(event_wire_format ⟨"Main", [⟨60, "open", ["email:a"]⟩]⟩ 61 "open"
      ⟨"open", 0, 0⟩ 2026 1 2 3 4 5 (by norm_num) (by norm_num) (by norm_num)
      (by norm_num) (by norm_num) (by norm_num)).1 _ (by decide),
   (event_wire_format ⟨"Main", [⟨60, "open", ["email:a"]⟩]⟩ 61 "open"
      ⟨"open", 0, 0⟩ 2026 1 2 3 4 5 (by norm_num) (by norm_num) (by norm_num)
      (by norm_num) (by norm_num) (by norm_num)).2.1⟩

/-- The main loop restricted to one door whose sensor reads the constant state
`sensed`: run the per-door tick body once per entry of `times`, threading the
door state and recording each tick's time and emissions. -/
def runTicks (door : Door) (stamp : String) (sensed : String) :
    DoorSt → List Int → DoorSt × List (Int × List Emission)
  | st, [] => (st, [])
  | st, now :: rest =>
    let r := tickStep door stamp now sensed st
    let r2 := runTicks door stamp sensed r.1 rest
    (r2.1, (now, r.2) :: r2.2)

/-- The tick times of an `N`-tick run at 1 Hz starting right after time
`k0`: `k0 + 1, k0 + 2, ..., k0 + N`. -/
def tickTimes : Int → Nat → List Int
  | _, 0 => []
  | k0, n + 1 => (k0 + 1) :: tickTimes (k0 + 1) n

/-- The expected escalation trace for a door stuck in `sensed` since time `0`:
at tick `k0 + 1` exactly the rules whose threshold equals `k0` fire (at most
one, when thresholds are strictly sorted), with the event carrying the time in
state `k0 + 1`. -/
def expectedEscalations (door : Door) (stamp : String) (sensed : String) :
    Int → Nat → List (Int × List Emission)
  | _, 0 => []
  | k0, n + 1 =>
    (k0 + 1,
      (door.alerts.filter (fun a => a.time == k0)).map
        (fun a => ⟨a.recipients, door.name,
          create_event stamp door.name sensed (k0 + 1)⟩))
    :: expectedEscalations door stamp sensed (k0 + 1) n

/-- No rule's threshold equals `k0` when the first `c` rules are below `k0`
and the rest are above it. -/
theorem filter_time_eq_nil (l : List AlertRule) (k0 : Int) (c : Nat)
    (hfired : ∀ a ∈ l.take c, a.time < k0)
    (hstrict : ∀ a ∈ l.drop c, k0 < a.time) :
    l.filter (fun a => a.time == k0) = [] := by
  rw [List.filter_eq_nil_iff]
  intro a ha
  rw [← List.take_append_drop c l] at ha
  rcases List.mem_append.mp ha with h | h
  · have := hfired a h
    simp only [beq_iff_eq]
    omega
  · have := hstrict a h
    simp only [beq_iff_eq]
    omega

/-- With strictly sorted thresholds, rule `c` is the only rule whose threshold
equals `k0` once the first `c` rules are below `k0`. -/
theorem filter_time_eq_singleton (l : List AlertRule) (k0 : Int) (c : Nat)
    (hsorted : l.Pairwise (fun a b => a.time < b.time))
    (hc : c < l.length)
    (hfired : ∀ a ∈ l.take c, a.time < k0)
    (ht : (l.get ⟨c, hc⟩).time = k0) :
    l.filter (fun a => a.time == k0) = [l.get ⟨c, hc⟩] := by
  have hdrop : l.drop c = l.get ⟨c, hc⟩ :: l.drop (c + 1) :=
    List.drop_eq_getElem_cons hc
  have hpw : (l.drop c).Pairwise (fun a b => a.time < b.time) :=
    hsorted.sublist (List.drop_sublist _ _)
  rw [hdrop] at hpw
  have h2 : (l.drop (c + 1)).filter (fun a => a.time == k0) = [] := by
    rw [List.filter_eq_nil_iff]
    intro a ha
    have := (List.pairwise_cons.mp hpw).1 a ha
    simp only [beq_iff_eq]
    omega
  have h1 : (l.take c).filter (fun a => a.time == k0) = [] := by
    rw [List.filter_eq_nil_iff]
    intro a ha
    have := hfired a ha
    simp only [beq_iff_eq]
    omega
  conv_lhs => rw [← List.take_append_drop c l]
  rw [List.filter_append, h1, hdrop, List.filter_cons,
    if_pos (by simp only [beq_iff_eq]; exact ht), h2]
  rfl

/-- On a no-change tick with time in state `k0 + 1`, a door at cursor `c`
whose rule `c` has threshold exactly `k0` fires rule `c` and advances. -/
theorem tickStep_const_fire (door : Door) (stamp sensed : String) (k0 : Int)
    (c : Nat) (hc : c < door.alerts.length)
    (htrig : ∀ a ∈ door.alerts, a.state = sensed)
    (ht : (door.alerts.get ⟨c, hc⟩).time = k0) :
    tickStep door stamp (k0 + 1) sensed ⟨sensed, 0, c⟩ =
      (⟨sensed, 0, c + 1⟩,
       [⟨(door.alerts.get ⟨c, hc⟩).recipients, door.name,
         create_event stamp door.name sensed (k0 + 1)⟩]) := by
  have hch : ¬ ((⟨sensed, 0, c⟩ : DoorSt).doorState ≠ sensed) := by simp
  have hmem : door.alerts.get ⟨c, hc⟩ ∈ door.alerts := List.getElem_mem hc
  have hgd : door.alerts.getD c default = door.alerts.get ⟨c, hc⟩ :=
    getD_eq_get_of_lt _ _ hc
  simp only [tickStep, if_neg hch, tickEscalate]
  rw [hgd]
  have hcond : k0 + 1 - 0 > (door.alerts.get ⟨c, hc⟩).time
      ∧ sensed = (door.alerts.get ⟨c, hc⟩).state := by
    constructor
    · omega
    · exact (htrig _ hmem).symm
  rw [if_pos hc, if_pos hcond]
  simp

/-- On a no-change tick with time in state `k0 + 1`, a door at cursor `c`
whose pending rule (if any) has threshold at least `k0 + 1` does nothing. -/
theorem tickStep_const_skip (door : Door) (stamp sensed : String) (k0 : Int)
    (c : Nat)
    (h : ∀ hc : c < door.alerts.length,
      k0 + 1 ≤ (door.alerts.get ⟨c, hc⟩).time) :
    tickStep door stamp (k0 + 1) sensed ⟨sensed, 0, c⟩ =
      (⟨sensed, 0, c⟩, []) := by
  have hch : ¬ ((⟨sensed, 0, c⟩ : DoorSt).doorState ≠ sensed) := by simp
  simp only [tickStep, if_neg hch, tickEscalate]
  by_cases hc : c < door.alerts.length
  · have hgd : door.alerts.getD c default = door.alerts.get ⟨c, hc⟩ :=
      getD_eq_get_of_lt _ _ hc
    have hle := h hc
    rw [if_pos hc, if_neg]
    intro hcond
    rw [hgd] at hcond
    have := hcond.1
    omega
  · rw [if_neg hc]

/-- Running the loop on a door stuck in its trigger state: with strictly
sorted thresholds, from a cursor consistent with the elapsed time (rules
before the cursor have thresholds below `k0`, the rest at least `k0`), the
emission trace is exactly one firing per rule, each on the tick right after
its threshold. -/
theorem runTicks_const (door : Door) (stamp sensed : String)
    (hsorted : door.alerts.Pairwise (fun a b => a.time < b.time))
    (htrig : ∀ a ∈ door.alerts, a.state = sensed) :
    ∀ (N : Nat) (k0 : Int) (c : Nat),
      (∀ a ∈ door.alerts.take c, a.time < k0) →
      (∀ a ∈ door.alerts.drop c, k0 ≤ a.time) →
      (runTicks door stamp sensed ⟨sensed, 0, c⟩ (tickTimes k0 N)).2 =
        expectedEscalations door stamp sensed k0 N := by
  intro N
  induction N with
  | zero =>
    intro k0 c _ _
    rfl
  | succ n ih =>
    intro k0 c hfired hunfired
    by_cases hc : c < door.alerts.length
    · have hdrop : door.alerts.drop c =
          door.alerts.get ⟨c, hc⟩ :: door.alerts.drop (c + 1) :=
        List.drop_eq_getElem_cons hc
      have hk0le : k0 ≤ (door.alerts.get ⟨c, hc⟩).time := by
        apply hunfired
        rw [hdrop]
        exact List.mem_cons_self _ _
      have hpw : (door.alerts.drop c).Pairwise (fun a b => a.time < b.time) :=
        hsorted.sublist (List.drop_sublist _ _)
      rw [hdrop] at hpw
      have htail := (List.pairwise_cons.mp hpw).1
      by_cases ht : (door.alerts.get ⟨c, hc⟩).time = k0
      · simp only [tickTimes, runTicks]
        rw [tickStep_const_fire door stamp sensed k0 c hc htrig ht]
        simp only [expectedEscalations]
        congr 1
        · rw [filter_time_eq_singleton door.alerts k0 c hsorted hc hfired ht]
          rfl
        · apply ih (k0 + 1) (c + 1)
          · intro a ha
            rw [List.take_succ] at ha
            rcases List.mem_append.mp ha with h | h
            · have := hfired a h
              omega
            · rw [List.getElem?_eq_getElem hc] at h
              have he : a = door.alerts.get ⟨c, hc⟩ := by simpa using h
              rw [he]
              omega
          · intro a ha
            have := htail a ha
            omega
      · have hgt : k0 < (door.alerts.get ⟨c, hc⟩).time := by omega
        have hskip : ∀ hc2 : c < door.alerts.length,
            k0 + 1 ≤ (door.alerts.get ⟨c, hc2⟩).time := by
          intro hc2
          have he : door.alerts.get ⟨c, hc2⟩ = door.alerts.get ⟨c, hc⟩ := rfl
          rw [he]
          omega
        simp only [tickTimes, runTicks]
        rw [tickStep_const_skip door stamp sensed k0 c hskip]
        simp only [expectedEscalations]
        congr 1
        · have hstrict : ∀ a ∈ door.alerts.drop c, k0 < a.time := by
            intro a ha
            rw [hdrop] at ha
            rcases List.mem_cons.mp ha with he | h
            · rw [he]
              omega
            · have := htail a h
              omega
          rw [filter_time_eq_nil door.alerts k0 c hfired hstrict]
          rfl
        · apply ih (k0 + 1) c
          · intro a ha
            have := hfired a ha
            omega
          · intro a ha
            rw [hdrop] at ha
            rcases List.mem_cons.mp ha with he | h
            · rw [he]
              omega
            · have := htail a h
              omega
    · have hdnil : door.alerts.drop c = [] :=
        List.drop_eq_nil_of_le (by omega)
      simp only [tickTimes, runTicks]
      rw [tickStep_const_skip door stamp sensed k0 c (fun hc2 => absurd hc2 hc)]
      simp only [expectedEscalations]
      congr 1
      · have hstrict : ∀ a ∈ door.alerts.drop c, k0 < a.time := by
          intro a ha
          rw [hdnil] at ha
          exact absurd ha (List.not_mem_nil a)
        rw [filter_time_eq_nil door.alerts k0 c hfired hstrict]
        rfl
      · apply ih (k0 + 1) c
        · intro a ha
          have := hfired a ha
          omega
        · intro a ha
          rw [hdnil] at ha
          exact absurd ha (List.not_mem_nil a)

/-- C2: a door whose sensor holds the rules' trigger state continuously from a
transition at time `0`, with strictly increasing non-negative thresholds,
produces over any `N`-tick 1 Hz run exactly one emission per rule: rule `i`
fires precisely on the tick `t_i + 1`, the first tick whose time in state
exceeds `t_i` (and on no other tick, so no rule fires twice without an
intervening state change). -/
theorem escalation_ladder (door : Door) (stamp sensed : String) (N : Nat)
    (hsorted : door.alerts.Pairwise (fun a b => a.time < b.time))
    (hpos : ∀ a ∈ door.alerts, 0 ≤ a.time)
    (htrig : ∀ a ∈ door.alerts, a.state = sensed) :
    (runTicks door stamp sensed ⟨sensed, 0, 0⟩ (tickTimes 0 N)).2 =
      expectedEscalations door stamp sensed 0 N := by
  apply runTicks_const door stamp sensed hsorted htrig N 0 0
  · intro a ha
    simp at ha
  · intro a ha
    exact hpos a (by simpa using ha)

/-- Witness for C2: two rules with thresholds `0` and `2` on a door held
`"open"` for four ticks fire exactly once each, at ticks `1` and `3`. -/
theorem escalation_ladder_witness :
    (runTicks ⟨"Main", [⟨0, "open", ["email:a"]⟩, ⟨2, "open", ["sms:b"]⟩]⟩
      "s" "open" ⟨"open", 0, 0⟩ (tickTimes 0 4)).2 =
      expectedEscalations
        ⟨"Main", [⟨0, "open", ["email:a"]⟩, ⟨2, "open", ["sms:b"]⟩]⟩
        "s" "open" 0 4 :=
  escalation_ladder _ _ _ 4
    (by simp [List.pairwise_cons]) (by decide) (by decide)
